import Mathlib

/-!
Verification of the ICMP echo probing client (`ping.go`).

The session state (`PingClient`), its constructor (`NewClient`), the probe
operation (`PingClient.Ping`) and the interrupt-triggered reporter from
`main` are shallowly embedded as pure Lean functions.  Outcomes of the
operating-system calls made during one probe (socket open, message encode,
send, deadline arming, receive, parse, and the measured wall-clock
duration) are collected in an oracle record `PingEnv`; one call of `Ping`
is a function of the session state and that oracle, exactly mirroring the
control flow of the source.  Round-trip times (Go `float64` millisecond
values) are modelled as rationals; payload bytes as natural numbers.
-/

/-- The session state, field for field the Go struct `PingClient`
(`IPAddr` is kept as the resolved address string). -/
structure PingClient where
  IPAddr : String
  Addr : String
  PacketOut : Nat
  PacketIn : Nat
  IPv4 : Bool
  Seq : Nat
  TotalTime : Rat
  RTTMax : Rat
  RTTMin : Rat
  MsgSize : Nat
  PLost : Nat
deriving DecidableEq

/-- The constructor `NewClient` after a successful address resolution: the resolved
address and the derived family flag are passed in (resolution itself is a
system call outside the program).  Field initialisers are those of the Go
source: counters 0, `RTTMax = -1e5`, `RTTMin = 1e5`. -/
def NewClient (ipaddr addr : String) (isIPv4 : Bool) (msgSize : Nat) : PingClient :=
  { IPAddr := ipaddr
    Addr := addr
    PacketOut := 0
    PacketIn := 0
    IPv4 := isIPv4
    Seq := 0
    TotalTime := 0
    RTTMax := -100000
    RTTMin := 100000
    MsgSize := msgSize
    PLost := 0 }

/-- Result of `icmp.ParseMessage`: the body is either an `icmp.Echo`
carrying its `Data` bytes, or some other ICMP body. -/
inductive ParsedBody where
  | echo (data : List Nat)
  | other
deriving DecidableEq

/-- Oracle for the system calls one `Ping` call performs, in source
order: `icmp.ListenPacket`, `Marshal`, `WriteTo` (error flag and bytes
written), `SetReadDeadline`, `ReadFrom` (error flag, byte count and the
parse outcome of the datagram), and the measured duration in
milliseconds. -/
structure PingEnv where
  listenOk : Bool
  marshalOk : Bool
  marshalLen : Nat
  writeErr : Bool
  writeN : Nat
  deadlineErr : Bool
  readErr : Bool
  readN : Nat
  durMs : Rat
  parseOk : Bool
  parsedBody : ParsedBody
deriving DecidableEq

/-- Which `return` statement a `Ping` call took.  `ok` is the final
`return nil`; every other constructor is one of the early error
returns. -/
inductive PingResult where
  | listenError
  | marshalError
  | writeError
  | shortWrite
  | deadlineError
  | readError
  | parseError
  | ok
deriving DecidableEq

/-- The per-attempt lost-byte computation of `Ping` (the local `pLost`):
if the received data is shorter than the sent data, start from the
missing-byte count and additionally count every mismatch over the
received length; otherwise count mismatches over the sent length. -/
def pLostCount (messageData pData : List Nat) : Nat :=
  if pData.length < messageData.length then
    List.foldl
      (fun acc i => if messageData.getD i 0 ≠ pData.getD i 0 then acc + 1 else acc)
      (messageData.length - pData.length)
      (List.range pData.length)
  else
    List.foldl
      (fun acc i => if messageData.getD i 0 ≠ pData.getD i 0 then acc + 1 else acc)
      0
      (List.range messageData.length)

/-- One call of `PingClient.Ping`, translated statement for statement
from the source.  Note three facts of the source that the theorems below
revolve around: `Seq`/`PacketOut` are incremented only after
`icmp.ListenPacket` succeeded; the RTT fields are updated on any
successfully received datagram, before the body is inspected; and the
locally computed `pLost` is never stored into `PLost`. -/
def PingClient.Ping (pc : PingClient) (env : PingEnv) : PingClient × PingResult :=
  if env.listenOk = true then
    let messageData := List.replicate pc.MsgSize 97
    let pc1 := { pc with Seq := pc.Seq + 1, PacketOut := pc.PacketOut + 1 }
    if env.marshalOk = true then
      if env.writeErr = true then (pc1, PingResult.writeError)
      else if env.writeN ≠ env.marshalLen then (pc1, PingResult.shortWrite)
      else if env.deadlineErr = true then (pc1, PingResult.deadlineError)
      else if env.readErr = true then (pc1, PingResult.readError)
      else
        let pc2 := { pc1 with RTTMin := if env.durMs < pc1.RTTMin then env.durMs else pc1.RTTMin }
        let pc3 := { pc2 with RTTMax := if env.durMs > pc2.RTTMax then env.durMs else pc2.RTTMax }
        let pc4 := { pc3 with TotalTime := pc3.TotalTime + env.durMs }
        if env.parseOk = true then
          if env.readN = 0 then (pc4, PingResult.ok)
          else
            let pc5 := { pc4 with PacketIn := pc4.PacketIn + 1 }
            let pLost := match env.parsedBody with
              | ParsedBody.echo pdata => pLostCount messageData pdata
              | ParsedBody.other => 0
            (pc5, PingResult.ok)
        else (pc4, PingResult.parseError)
    else (pc1, PingResult.marshalError)
  else (pc, PingResult.listenError)

/-- Run a sequence of `Ping` calls, keeping only the session state (the
driver loop of `main` prints and discards each call's error). -/
def pingRun (pc : PingClient) (envs : List PingEnv) : PingClient :=
  List.foldl (fun s e => (PingClient.Ping s e).1) pc envs

/-- The statistics fields of the session. -/
inductive StatField where
  | packetOut
  | packetIn
  | seq
  | totalTime
  | rttMax
  | rttMin
  | msgSize
  | plost
deriving DecidableEq

/-- Observable resource and shared-state events of one control path:
socket lifecycle, lock operations, and accesses to the statistics
fields. -/
inductive PingEvent where
  | socketOpen
  | socketClose
  | lockAcquire
  | lockRelease
  | mutate (f : StatField)
  | readField (f : StatField)
deriving DecidableEq

/-- The event trace of one `Ping` call on the same control path as
`PingClient.Ping`: the socket handle obtained from `icmp.ListenPacket`,
the writes to the statistics fields, and any synchronisation operations.
The source contains no `Close` call and no lock, so no `socketClose`,
`lockAcquire` or `lockRelease` event is ever emitted. -/
def pingEvents (pc : PingClient) (env : PingEnv) : List PingEvent :=
  if env.listenOk = true then
    PingEvent.socketOpen ::
    PingEvent.mutate StatField.seq ::
    PingEvent.mutate StatField.packetOut ::
    (if env.marshalOk = true then
      if env.writeErr = true then []
      else if env.writeN ≠ env.marshalLen then []
      else if env.deadlineErr = true then []
      else if env.readErr = true then []
      else
        (if env.durMs < pc.RTTMin then [PingEvent.mutate StatField.rttMin] else []) ++
        (if env.durMs > pc.RTTMax then [PingEvent.mutate StatField.rttMax] else []) ++
        [PingEvent.mutate StatField.totalTime] ++
        (if env.parseOk = true then
          if env.readN = 0 then []
          else [PingEvent.mutate StatField.packetIn]
        else [])
    else [])
  else []

/-- The event trace of the interrupt-triggered reporter goroutine in
`main`: it reads `PacketIn`, on `PacketIn > 0` reads `PLost`,
`PacketOut` and `MsgSize` for the loss percentage, prints `PacketOut`
and `PacketIn`, and on `PacketIn > 0` reads the RTT fields — all without
any lock operation, as in the source. -/
def reportEvents (pc : PingClient) : List PingEvent :=
  PingEvent.readField StatField.packetIn ::
  ((if 0 < pc.PacketIn then
      [PingEvent.readField StatField.plost,
       PingEvent.readField StatField.packetOut,
       PingEvent.readField StatField.msgSize]
    else []) ++
   [PingEvent.readField StatField.packetOut, PingEvent.readField StatField.packetIn] ++
   (if 0 < pc.PacketIn then
      [PingEvent.readField StatField.rttMin,
       PingEvent.readField StatField.totalTime,
       PingEvent.readField StatField.packetIn,
       PingEvent.readField StatField.rttMax]
    else []))

/-- The path condition under which `Ping` reaches the post-receive code:
socket opened, message marshalled, fully written, deadline armed and a
datagram read before the deadline. -/
def recvOk (env : PingEnv) : Prop :=
  env.listenOk = true ∧ env.marshalOk = true ∧ env.writeErr = false ∧
  env.writeN = env.marshalLen ∧ env.deadlineErr = false ∧ env.readErr = false

instance (env : PingEnv) : Decidable (recvOk env) := by
  unfold recvOk
  infer_instance

/-- The path condition of the send-error return (`c.WriteTo` failed). -/
def sendFails (env : PingEnv) : Prop :=
  env.listenOk = true ∧ env.marshalOk = true ∧ env.writeErr = true

/-- The path condition of the timeout return (`c.ReadFrom` failed after
the deadline was armed). -/
def timesOut (env : PingEnv) : Prop :=
  env.listenOk = true ∧ env.marshalOk = true ∧ env.writeErr = false ∧
  env.writeN = env.marshalLen ∧ env.deadlineErr = false ∧ env.readErr = true

/-! ## Concrete fixtures -/

/-- A session as `main` builds it for a resolved IPv4 target, with an
8-byte message size. -/
def pcStd : PingClient := NewClient "93.184.216.34" "example.com" true 8

/-- An all-success probe environment: every system call succeeds and the
reply echoes the full 8-byte payload; measured RTT 12.3 ms. -/
def envOk : PingEnv :=
  { listenOk := true
    marshalOk := true
    marshalLen := 16
    writeErr := false
    writeN := 16
    deadlineErr := false
    readErr := false
    readN := 28
    durMs := 123/10
    parseOk := true
    parsedBody := ParsedBody.echo (List.replicate 8 97) }

/-- Environment in which `icmp.ListenPacket` fails; everything else as in `envOk`. -/
def envListenFail : PingEnv := { envOk with listenOk := false }

/-- Environment in which `c.WriteTo` fails; everything else as in `envOk`. -/
def envWriteErr : PingEnv := { envOk with writeErr := true }

/-- Environment in which `c.ReadFrom` fails (receive deadline expired);
everything else as in
`envOk`. -/
def envTimeout : PingEnv := { envOk with readErr := true }

/-- The reply parses to a non-Echo ICMP body; everything else as in
`envOk`. -/
def envOther : PingEnv := { envOk with parsedBody := ParsedBody.other }

/-- The reply echoes only the first 4 of the 8 sent payload bytes. -/
def envShortReply : PingEnv :=
  { envOk with readN := 24, parsedBody := ParsedBody.echo (List.replicate 4 97) }

/-- A successful probe whose measured RTT, 200000 ms, exceeds the
`RTTMin` sentinel `1e5`. -/
def envBigRtt : PingEnv := { envOk with durMs := 200000 }

/-- A successful probe with RTT 4.1 ms. -/
def envRtt2 : PingEnv := { envOk with durMs := 41/10 }

/-! ## Helper lemmas -/

/-- Counting mismatches by a fold, as the `pLost` loops do, is the
initial value plus `countP`. -/
theorem foldl_mismatch_count (s r : List Nat) (l : List Nat) :
    ∀ init : Nat,
      List.foldl (fun acc i => if s.getD i 0 ≠ r.getD i 0 then acc + 1 else acc) init l
        = init + l.countP (fun i => decide (s.getD i 0 ≠ r.getD i 0)) := by
  induction l with
  | nil => intro init; simp
  | cons a t ih =>
      intro init
      rw [List.foldl_cons, ih, List.countP_cons]
      by_cases h : s.getD a 0 ≠ r.getD a 0
      · rw [if_pos h, if_pos (decide_eq_true h)]
        omega
      · rw [if_neg h, if_neg (by simpa using h)]
        omega

/-- A call of `Ping` changes `Seq` to `Seq + 1` exactly when the socket opened,
and leaves it unchanged otherwise, on every exit path. -/
theorem Ping_Seq_step (pc : PingClient) (env : PingEnv) :
    (PingClient.Ping pc env).1.Seq =
      if env.listenOk = true then pc.Seq + 1 else pc.Seq := by
  simp only [PingClient.Ping]
  repeat' split
  all_goals simp_all

/-- A call of `Ping` changes `PacketOut` to `PacketOut + 1` exactly when the socket
opened, and leaves it unchanged otherwise, on every exit path. -/
theorem Ping_PacketOut_step (pc : PingClient) (env : PingEnv) :
    (PingClient.Ping pc env).1.PacketOut =
      if env.listenOk = true then pc.PacketOut + 1 else pc.PacketOut := by
  simp only [PingClient.Ping]
  repeat' split
  all_goals simp_all

/-- Claim C1 (status: code_bug).  The probe operation never accumulates
the per-attempt lost-byte count into the session counter: on every input
whatsoever, `PLost` after `Ping` equals `PLost` before — even though the
per-attempt count (here for sent `"aaaaaaaa"`, received `"aaaa"`) is 4.
The local `pLost` of the source is computed and then dropped; the spec
requires `PLost` to grow by it. -/
theorem ping_plost_never_accumulated :
    (∀ (pc : PingClient) (env : PingEnv),
      (PingClient.Ping pc env).1.PLost = pc.PLost) ∧
    pLostCount (List.replicate 8 97) (List.replicate 4 97) = 4 ∧
    (PingClient.Ping pcStd envShortReply).1.PLost = pcStd.PLost := by
  refine ⟨fun pc env => ?_, by decide, by decide⟩
  simp only [PingClient.Ping]
  repeat' split
  all_goals rfl

/-- Claim C2 (status: confirmed).  The per-attempt lost-byte count is:
if the reply is shorter, the missing-byte count plus the number of
mismatching indices below the reply length (additive); otherwise the
number of mismatching indices below the sent length.  In particular an
8-byte `"aaaaaaaa"` answered by a matching 4-byte `"aaaa"` counts 4. -/
theorem ping_per_attempt_loss_rule (s r : List Nat) :
    (pLostCount s r =
      if r.length < s.length then
        (s.length - r.length) +
          (List.range r.length).countP (fun i => decide (s.getD i 0 ≠ r.getD i 0))
      else
        (List.range s.length).countP (fun i => decide (s.getD i 0 ≠ r.getD i 0))) ∧
    pLostCount (List.replicate 8 97) (List.replicate 4 97) = 4 := by
  constructor
  · unfold pLostCount
    split
    · rw [foldl_mismatch_count]
    · rw [foldl_mismatch_count]
      omega
  · decide

/-- Claim C5 counterexample: when `icmp.ListenPacket` fails, `Ping`
returns before the `pc.Seq++` statement, so `Seq` is not incremented —
refuting "Seq increases by 1 regardless of the call's outcome, including
socket-open failure". -/
theorem seq_unchanged_on_listen_failure :
    ¬ ((PingClient.Ping pcStd envListenFail).1.Seq = pcStd.Seq + 1) := by
  decide

/-- Claim C5 (status: corrected).  Amended: every call in which the
socket opens successfully increments `Seq` by exactly 1 on every exit
path, so over N consecutive calls that all pass socket acquisition, `Seq`
grows by exactly N; a call that fails at `icmp.ListenPacket` leaves `Seq`
unchanged. -/
theorem seq_increments_per_socket_opened (pc : PingClient) (envs : List PingEnv)
    (h : ∀ e ∈ envs, e.listenOk = true) :
    (pingRun pc envs).Seq = pc.Seq + envs.length := by
  induction envs generalizing pc with
  | nil => simp [pingRun]
  | cons e t ih =>
      have he : e.listenOk = true := h e (List.mem_cons_self e t)
      have ht : ∀ x ∈ t, x.listenOk = true := fun x hx => h x (List.mem_cons_of_mem e hx)
      have hstep : (PingClient.Ping pc e).1.Seq = pc.Seq + 1 := by
        rw [Ping_Seq_step, if_pos he]
      have hrw : pingRun pc (e :: t) = pingRun (PingClient.Ping pc e).1 t := by
        simp [pingRun]
      rw [hrw, ih _ ht, hstep, List.length_cons]
      omega

/-- Witness for the amended C5 at concrete inputs: two all-success calls
from a fresh session leave `Seq = 2`. -/
theorem seq_increments_per_socket_opened_witness :
    (pingRun pcStd [envOk, envOk]).Seq = 2 := by
  have h := seq_increments_per_socket_opened pcStd [envOk, envOk] (by
    intro e he
    rcases List.mem_cons.mp he with h1 | h1
    · rw [h1]; rfl
    · rcases List.mem_cons.mp h1 with h2 | h2
      · rw [h2]; rfl
      · cases h2)
  simpa [pcStd, NewClient] using h

/-- Claim C10 (status: confirmed).  In every state reachable from
`NewClient` by any sequence of `Ping` calls with any outcomes,
`Seq = PacketOut`: both start at 0 and are incremented together at the
same program point. -/
theorem reachable_seq_eq_packetOut (ip addr : String) (v4 : Bool) (msz : Nat)
    (envs : List PingEnv) :
    (pingRun (NewClient ip addr v4 msz) envs).Seq
      = (pingRun (NewClient ip addr v4 msz) envs).PacketOut := by
  have main : ∀ (es : List PingEnv) (pc : PingClient), pc.Seq = pc.PacketOut →
      (pingRun pc es).Seq = (pingRun pc es).PacketOut := by
    intro es
    induction es with
    | nil => intro pc h; simpa [pingRun] using h
    | cons e t ih =>
        intro pc h
        have hstep : (PingClient.Ping pc e).1.Seq = (PingClient.Ping pc e).1.PacketOut := by
          rw [Ping_Seq_step, Ping_PacketOut_step, h]
        have hrw : pingRun pc (e :: t) = pingRun (PingClient.Ping pc e).1 t := by
          simp [pingRun]
        rw [hrw]
        exact ih _ hstep
  exact main envs _ rfl

/-- One `Ping` call preserves `PacketIn ≤ PacketOut`: `PacketIn` is
incremented at most once, and only on a path on which `PacketOut` was
also incremented. -/
theorem Ping_in_le_out_step (pc : PingClient) (env : PingEnv)
    (h : pc.PacketIn ≤ pc.PacketOut) :
    (PingClient.Ping pc env).1.PacketIn ≤ (PingClient.Ping pc env).1.PacketOut := by
  simp only [PingClient.Ping]
  repeat' split
  all_goals dsimp only
  all_goals omega

/-- Claim C7 (status: confirmed).  In every state reachable from
`NewClient` by any sequence of `Ping` calls with any outcomes,
`PacketIn ≤ PacketOut`. -/
theorem reachable_packetIn_le_packetOut (ip addr : String) (v4 : Bool) (msz : Nat)
    (envs : List PingEnv) :
    (pingRun (NewClient ip addr v4 msz) envs).PacketIn
      ≤ (pingRun (NewClient ip addr v4 msz) envs).PacketOut := by
  have main : ∀ (es : List PingEnv) (pc : PingClient), pc.PacketIn ≤ pc.PacketOut →
      (pingRun pc es).PacketIn ≤ (pingRun pc es).PacketOut := by
    intro es
    induction es with
    | nil => intro pc h; simpa [pingRun] using h
    | cons e t ih =>
        intro pc h
        have hrw : pingRun pc (e :: t) = pingRun (PingClient.Ping pc e).1 t := by
          simp [pingRun]
        rw [hrw]
        exact ih _ (Ping_in_le_out_step pc e h)
  exact main envs _ (Nat.le_refl 0)

/-- Claim C6 (status: confirmed).  A call that fails with a send error
(`c.WriteTo` returned an error) or with a receive-deadline timeout
(`c.ReadFrom` returned an error) has incremented `PacketOut` and `Seq`
but leaves `PacketIn`, `PLost`, `RTTMin`, `RTTMax` and `TotalTime`
exactly as they were. -/
theorem failed_probe_preserves_stats (pc : PingClient) (env : PingEnv)
    (h : sendFails env ∨ timesOut env) :
    ((PingClient.Ping pc env).2 = PingResult.writeError ∨
     (PingClient.Ping pc env).2 = PingResult.readError) ∧
    (PingClient.Ping pc env).1.PacketOut = pc.PacketOut + 1 ∧
    (PingClient.Ping pc env).1.Seq = pc.Seq + 1 ∧
    (PingClient.Ping pc env).1.PacketIn = pc.PacketIn ∧
    (PingClient.Ping pc env).1.PLost = pc.PLost ∧
    (PingClient.Ping pc env).1.RTTMin = pc.RTTMin ∧
    (PingClient.Ping pc env).1.RTTMax = pc.RTTMax ∧
    (PingClient.Ping pc env).1.TotalTime = pc.TotalTime := by
  rcases h with ⟨h1, h2, h3⟩ | ⟨h1, h2, h3, h4, h5, h6⟩
  · simp [PingClient.Ping, h1, h2, h3]
  · simp [PingClient.Ping, h1, h2, h3, h4, h5, h6]

/-- Witness for C6 at a concrete input: a probe whose `WriteTo` fails,
from the fresh session. -/
theorem failed_probe_preserves_stats_witness :
    ((PingClient.Ping pcStd envWriteErr).2 = PingResult.writeError ∨
     (PingClient.Ping pcStd envWriteErr).2 = PingResult.readError) ∧
    (PingClient.Ping pcStd envWriteErr).1.PacketOut = pcStd.PacketOut + 1 ∧
    (PingClient.Ping pcStd envWriteErr).1.Seq = pcStd.Seq + 1 ∧
    (PingClient.Ping pcStd envWriteErr).1.PacketIn = pcStd.PacketIn ∧
    (PingClient.Ping pcStd envWriteErr).1.PLost = pcStd.PLost ∧
    (PingClient.Ping pcStd envWriteErr).1.RTTMin = pcStd.RTTMin ∧
    (PingClient.Ping pcStd envWriteErr).1.RTTMax = pcStd.RTTMax ∧
    (PingClient.Ping pcStd envWriteErr).1.TotalTime = pcStd.TotalTime :=
  failed_probe_preserves_stats pcStd envWriteErr (Or.inl ⟨rfl, rfl, rfl⟩)

/-- Claim C3 counterexample: a parsed non-Echo body is not surfaced as a
distinct error — the call returns the success outcome (`return nil`) and
`PacketIn` has been incremented (the `pc.PacketIn++` of the source runs
before the body-type switch), refuting "an error value, not success, and
PacketIn unchanged". -/
theorem non_echo_reply_counted_as_received :
    (PingClient.Ping pcStd envOther).2 = PingResult.ok ∧
    (PingClient.Ping pcStd envOther).1.PacketIn = pcStd.PacketIn + 1 := by
  constructor
  · decide
  · decide

/-- Claim C3 (status: corrected).  Amended: a received datagram whose
parsed body is not an Echo body is treated like any other received
reply: the call succeeds (`return nil`), `PacketIn` is incremented, and
it contributes nothing to `PLost` (which is unchanged). -/
theorem non_echo_reply_silent_success (pc : PingClient) (env : PingEnv)
    (hr : recvOk env) (hp : env.parseOk = true) (hn : env.readN ≠ 0)
    (hb : env.parsedBody = ParsedBody.other) :
    (PingClient.Ping pc env).2 = PingResult.ok ∧
    (PingClient.Ping pc env).1.PacketIn = pc.PacketIn + 1 ∧
    (PingClient.Ping pc env).1.PLost = pc.PLost := by
  obtain ⟨h1, h2, h3, h4, h5, h6⟩ := hr
  simp [PingClient.Ping, h1, h2, h3, h4, h5, h6, hp, hn]

/-- Witness for the amended C3 at a concrete input: an otherwise
successful probe whose reply parses to a non-Echo body. -/
theorem non_echo_reply_silent_success_witness :
    (PingClient.Ping pcStd envOther).2 = PingResult.ok ∧
    (PingClient.Ping pcStd envOther).1.PacketIn = pcStd.PacketIn + 1 ∧
    (PingClient.Ping pcStd envOther).1.PLost = pcStd.PLost :=
  non_echo_reply_silent_success pcStd envOther ⟨rfl, rfl, rfl, rfl, rfl, rfl⟩
    rfl (by decide) rfl

/-- No path of `Ping` emits a `socketClose` event: the source never
calls `Close` on the connection obtained from `icmp.ListenPacket`. -/
theorem pingEvents_no_close (pc : PingClient) (env : PingEnv) :
    PingEvent.socketClose ∉ pingEvents pc env := by
  unfold pingEvents
  repeat' split
  all_goals simp

/-- Claim C4 (status: code_bug).  Whenever the socket opens, the call's
trace contains the open but never a close: the source lacks both a
`defer c.Close()` and any explicit `c.Close()`, so every probe call
leaks its socket, contradicting the specified guaranteed release on all
exit paths. -/
theorem socket_opened_never_closed (pc : PingClient) (env : PingEnv)
    (h : env.listenOk = true) :
    PingEvent.socketOpen ∈ pingEvents pc env ∧
    PingEvent.socketClose ∉ pingEvents pc env := by
  constructor
  · unfold pingEvents
    rw [if_pos h]
    exact List.mem_cons_self _ _
  · exact pingEvents_no_close pc env

/-- Witness for C4 at a concrete input: the all-success probe opens a
socket and never closes it. -/
theorem socket_opened_never_closed_witness :
    PingEvent.socketOpen ∈ pingEvents pcStd envOk ∧
    PingEvent.socketClose ∉ pingEvents pcStd envOk :=
  socket_opened_never_closed pcStd envOk rfl

/-- Claim C9 (status: code_bug).  The program contains no
mutual-exclusion lock at all: no path of the probe operation and no path
of the interrupt-triggered reporter ever acquires a lock, while the
probe path does mutate and the reporter does read the statistics fields
(shown at a concrete input) — contradicting the specified common lock
around every statistics update and read. -/
theorem stats_access_without_lock :
    (∀ (pc : PingClient) (env : PingEnv),
      PingEvent.lockAcquire ∉ pingEvents pc env ∧
      PingEvent.lockRelease ∉ pingEvents pc env) ∧
    (∀ pc : PingClient,
      PingEvent.lockAcquire ∉ reportEvents pc ∧
      PingEvent.lockRelease ∉ reportEvents pc) ∧
    PingEvent.mutate StatField.packetOut ∈ pingEvents pcStd envOk ∧
    PingEvent.readField StatField.packetOut ∈ reportEvents pcStd := by
  refine ⟨fun pc env => ⟨?_, ?_⟩, fun pc => ⟨?_, ?_⟩, ?_, ?_⟩
  · unfold pingEvents
    repeat' split
    all_goals simp
  · unfold pingEvents
    repeat' split
    all_goals simp
  · unfold reportEvents
    split
    all_goals simp
  · unfold reportEvents
    split
    all_goals simp
  · simp [pingEvents, envOk]
  · decide

/-- Under `recvOk` (a datagram was received before the deadline), the
RTT fields of the state after `Ping` are exactly the two conditional
updates of the source, whatever the reply body is. -/
theorem Ping_RTT_fields (pc : PingClient) (env : PingEnv) (hr : recvOk env) :
    (PingClient.Ping pc env).1.RTTMin
      = (if env.durMs < pc.RTTMin then env.durMs else pc.RTTMin) ∧
    (PingClient.Ping pc env).1.RTTMax
      = (if env.durMs > pc.RTTMax then env.durMs else pc.RTTMax) := by
  obtain ⟨e1, e2, e3, e4, e5, e6⟩ := hr
  simp only [PingClient.Ping, e1, e2, e3, e4, e5, e6]
  repeat' split
  all_goals simp_all

/-- Claim C8 counterexample: from the fresh session, a first successful
probe measuring 200000 ms leaves `RTTMin = 100000` (the sentinel), not
200000 — refuting "for every possible RTT value r of the first
successful probe, RTTMin = RTTMax = r afterwards". -/
theorem first_probe_large_rtt_min_not_established :
    ¬ ((PingClient.Ping pcStd envBigRtt).1.RTTMin = (200000 : Rat)) := by
  have hr : recvOk envBigRtt := ⟨rfl, rfl, rfl, rfl, rfl, rfl⟩
  have hshape := Ping_RTT_fields pcStd envBigRtt hr
  rw [hshape.1]
  norm_num [pcStd, NewClient, envBigRtt, envOk]

/-- Claim C8 (status: corrected).  Amended: `RTTMin`/`RTTMax` are
initialized to the sentinels `1e5`/`-1e5`, so the first successful probe
establishes both bounds for every RTT r with 0 ≤ r ≤ 100000 ms (every
RTT the 5-second receive deadline can actually produce), and every
subsequent successfully received probe updates them to
`min(RTTMin, r)` / `max(RTTMax, r)`. -/
theorem rtt_bounds_update :
    (∀ (ip addr : String) (v4 : Bool) (msz : Nat) (env : PingEnv),
      recvOk env → 0 ≤ env.durMs → env.durMs ≤ 100000 →
      (PingClient.Ping (NewClient ip addr v4 msz) env).1.RTTMin = env.durMs ∧
      (PingClient.Ping (NewClient ip addr v4 msz) env).1.RTTMax = env.durMs) ∧
    (∀ (pc : PingClient) (env : PingEnv), recvOk env →
      (PingClient.Ping pc env).1.RTTMin = min pc.RTTMin env.durMs ∧
      (PingClient.Ping pc env).1.RTTMax = max pc.RTTMax env.durMs) := by
  constructor
  · intro ip addr v4 msz env hr h0 h1
    have hshape := Ping_RTT_fields (NewClient ip addr v4 msz) env hr
    have hminval : (NewClient ip addr v4 msz).RTTMin = (100000 : Rat) := rfl
    have hmaxval : (NewClient ip addr v4 msz).RTTMax = (-100000 : Rat) := rfl
    constructor
    · rw [hshape.1, hminval]
      by_cases hlt : env.durMs < (100000 : Rat)
      · rw [if_pos hlt]
      · rw [if_neg hlt]
        exact (le_antisymm h1 (not_lt.mp hlt)).symm
    · rw [hshape.2, hmaxval]
      have hgt : env.durMs > (-100000 : Rat) := lt_of_lt_of_le (by norm_num) h0
      rw [if_pos hgt]
  · intro pc env hr
    have hshape := Ping_RTT_fields pc env hr
    constructor
    · rw [hshape.1]
      rcases le_or_lt pc.RTTMin env.durMs with hle | hlt
      · rw [if_neg (not_lt.mpr hle), min_eq_left hle]
      · rw [if_pos hlt, min_eq_right hlt.le]
    · rw [hshape.2]
      rcases le_or_lt env.durMs pc.RTTMax with hle | hlt
      · rw [if_neg (not_lt.mpr hle), max_eq_left hle]
      · rw [if_pos hlt, max_eq_right hlt.le]

/-- Witness for the amended C8 at concrete inputs: a fresh session, a
first successful probe at 12.3 ms establishing both bounds, then a
second at 4.1 ms lowering only the minimum. -/
theorem rtt_bounds_update_witness :
    ((PingClient.Ping (NewClient "93.184.216.34" "example.com" true 8) envOk).1.RTTMin
        = (123/10 : Rat) ∧
     (PingClient.Ping (NewClient "93.184.216.34" "example.com" true 8) envOk).1.RTTMax
        = (123/10 : Rat)) ∧
    ((PingClient.Ping
        (PingClient.Ping (NewClient "93.184.216.34" "example.com" true 8) envOk).1
        envRtt2).1.RTTMin = (41/10 : Rat) ∧
     (PingClient.Ping
        (PingClient.Ping (NewClient "93.184.216.34" "example.com" true 8) envOk).1
        envRtt2).1.RTTMax = (123/10 : Rat)) := by
  have hrOk : recvOk envOk := ⟨rfl, rfl, rfl, rfl, rfl, rfl⟩
  have hr2 : recvOk envRtt2 := ⟨rfl, rfl, rfl, rfl, rfl, rfl⟩
  have h1 := rtt_bounds_update.1 "93.184.216.34" "example.com" true 8 envOk hrOk
    (by norm_num [envOk]) (by norm_num [envOk])
  have h2 := rtt_bounds_update.2
    (PingClient.Ping (NewClient "93.184.216.34" "example.com" true 8) envOk).1 envRtt2 hr2
  refine ⟨⟨h1.1, h1.2⟩, ?_, ?_⟩
  · rw [h2.1, h1.1, min_eq_right (by norm_num [envOk, envRtt2])]
    rfl
  · rw [h2.2, h1.2, max_eq_left (by norm_num [envOk, envRtt2])]
    rfl
